import Mathlib

/-!
Verification of `run_asr_SLT_kfold.py` (k-fold CTC fine-tuning script).

Shallow embedding: Python strings are modelled as `List Char`, floating-point
quantities (losses, durations) as `ℚ`, label tensors as `List Int`, and
Python exceptions as `Except String` / `Option`. Each definition mirrors the
source function named in its doc comment.
-/

set_option autoImplicit false

/-- Whitespace characters recognised by Python `str.split()` (ASCII range):
space, tab, newline, carriage return, vertical tab, form feed. -/
def isPySpace (c : Char) : Bool :=
  c = ' ' || c = '\t' || c = '\n' || c = '\r' || c = Char.ofNat 11 || c = Char.ofNat 12

/-- Flush the current word of a split accumulator onto the completed-word list
(dropping it when empty, as Python `str.split()` drops empty fields). -/
def flushWord (p : List Char × List (List Char)) : List (List Char) :=
  if p.1 = [] then p.2 else p.1 :: p.2

/-- One character step of Python `str.split()`, processed right to left:
a whitespace character flushes the word being built, any other character is
prepended to it. -/
def splitStep (c : Char) (p : List Char × List (List Char)) :
    List Char × List (List Char) :=
  if isPySpace c then ([], flushWord p) else (c :: p.1, p.2)

/-- Python `text.split()`: split on runs of whitespace, discarding empty
fields. -/
def pySplit (s : List Char) : List (List Char) :=
  flushWord (s.foldr splitStep ([], []))

/-- Python `" ".join(words)`. -/
def joinWords : List (List Char) → List Char
  | [] => []
  | [w] => w
  | w :: ws => w ++ ' ' :: joinWords ws

/-- Python `text.translate(table)` for a character-to-character table built by
`str.maketrans` (the only shape the script builds): each character with an
entry is replaced by its image, all others are kept. -/
def pyTranslate (tbl : List (Char × Char)) (s : List Char) : List Char :=
  s.map (fun c => ((tbl.lookup c).getD c))

/-- The translation table `str.maketrans({"-": " "})` used by the `timit` and
`buckwalter` orthographies. -/
def dashToSpaceTable : List (Char × Char) := [('-', ' ')]

/-- `Orthography` dataclass of the script (lines 135-157): text normalization
and tokenization policy. The `vocab_file` path is kept as an opaque string. -/
structure Orthography where
  do_lower_case : Bool
  vocab_file : Option String
  word_delimiter_token : Option String
  translation_table : List (Char × Char)
  words_to_remove : List (List Char)
deriving DecidableEq, Repr

/-- The policy `Orthography.from_name` returns for `"librispeech"`
(all defaults). -/
def librispeechOrthography : Orthography :=
  { do_lower_case := false
    vocab_file := none
    word_delimiter_token := some "|"
    translation_table := []
    words_to_remove := [] }

/-- The policy `Orthography.from_name` returns for `"timit"`. -/
def timitOrthography : Orthography :=
  { do_lower_case := true
    vocab_file := none
    word_delimiter_token := some "|"
    translation_table := dashToSpaceTable
    words_to_remove := [] }

/-- The policy `Orthography.from_name` returns for `"buckwalter"`. -/
def buckwalterOrthography : Orthography :=
  { do_lower_case := false
    vocab_file := some "vocab/buckwalter.json"
    word_delimiter_token := some "/"
    translation_table := dashToSpaceTable
    words_to_remove := [['s', 'i', 'l']] }

/-- `Orthography.from_name` (lines 159-179): resolve a scheme name to a
policy; an unrecognised name raises `ValueError` (modelled as `Except.error`
carrying the message). -/
def Orthography.from_name (name : String) : Except String Orthography :=
  if name = "librispeech" then Except.ok librispeechOrthography
  else if name = "timit" then Except.ok timitOrthography
  else if name = "buckwalter" then Except.ok buckwalterOrthography
  else Except.error ("Unsupported orthography: " ++ name ++ ".")

/-- First phase of `preprocess_for_training` (lines 182-183): apply the
translation table when it is non-empty. -/
def applyTranslation (o : Orthography) (text : List Char) : List Char :=
  if o.translation_table.length > 0 then pyTranslate o.translation_table text
  else text

/-- Second phase of `preprocess_for_training` (lines 184-190): split on
whitespace, drop the configured words to remove (when any), and re-join with
single spaces. -/
def removeWordsAndJoin (o : Orthography) (text : List Char) : List Char :=
  if o.words_to_remove.length = 0 then
    joinWords (pySplit text)
  else
    joinWords ((pySplit text).filter (fun w => !(o.words_to_remove.contains w)))

/-- `Orthography.preprocess_for_training` (lines 181-190). -/
def Orthography.preprocess_for_training (o : Orthography) (text : List Char) :
    List Char :=
  removeWordsAndJoin o (applyTranslation o text)

/-- Training configuration fields read by `CTCTrainer.training_step`:
`self.args.n_gpu`, `model.module.config.ctc_loss_reduction` and
`self.args.gradient_accumulation_steps`. -/
structure TrainConfig where
  n_gpu : Nat
  ctc_loss_reduction : String
  gradient_accumulation_steps : Nat
deriving DecidableEq, Repr

/-- `(inputs["labels"] >= 0).sum()` (line 312): the number of label positions
holding a non-negative id, i.e. the non-ignored positions (the ignore
sentinel is -100). -/
def count_non_ignored (labels : List Int) : Nat :=
  labels.countP (fun l => decide (0 ≤ l))

/-- `loss.sum()` over the per-replica loss vector. -/
def lossSum (losses : List ℚ) : ℚ := losses.foldr (fun a b => a + b) 0

/-- `loss.mean()` over the per-replica loss vector: element-wise average. -/
def lossMean (losses : List ℚ) : ℚ := lossSum losses / (losses.length : ℚ)

/-- Multi-device loss reduction of `CTCTrainer.training_step` (lines
308-315): active when `n_gpu > 1`; `"mean"` averages the replica losses,
`"sum"` divides their sum by the count of non-ignored label positions, and
any other configured value raises `ValueError`. With a single device the
scalar loss (modelled as a singleton loss vector) passes through. -/
def reduce_loss (cfg : TrainConfig) (losses : List ℚ) (labels : List Int) :
    Except String ℚ :=
  if cfg.n_gpu > 1 then
    if cfg.ctc_loss_reduction = "mean" then Except.ok (lossMean losses)
    else if cfg.ctc_loss_reduction = "sum" then
      Except.ok (lossSum losses / (count_non_ignored labels : ℚ))
    else Except.error
      (cfg.ctc_loss_reduction ++ " is not valid. Choose one of [mean, sum]")
  else Except.ok (losses.headD 0)

/-- Gradient-accumulation scaling of `training_step` (lines 317-318). -/
def grad_accum_scale (cfg : TrainConfig) (loss : ℚ) : ℚ :=
  if cfg.gradient_accumulation_steps > 1 then
    loss / (cfg.gradient_accumulation_steps : ℚ)
  else loss

/-- `CTCTrainer.training_step` after `compute_loss` (lines 308-330): reduce
the multi-device loss, scale for gradient accumulation, and return the value
that is both backpropagated and returned detached. An error short-circuits:
no value reaches the backward pass. -/
def training_step (cfg : TrainConfig) (losses : List ℚ) (labels : List Int) :
    Except String ℚ :=
  (reduce_loss cfg losses labels).map (grad_accum_scale cfg)

/-- Maximum original label length in a batch: the length `processor.pad`
pads every sequence to under the `padding=True` (longest) strategy used by
`main` (line 460). -/
def batch_max_len (features : List (List Int)) : Nat :=
  features.foldr (fun xs m => max xs.length m) 0

/-- Right-padding of one label sequence to length `L` with the tokenizer pad
id, as done inside `processor.pad` (lines 261-268). -/
def pad_sequence (L : Nat) (pad_id : Int) (xs : List Int) : List Int :=
  xs ++ List.replicate (L - xs.length) pad_id

/-- The label attention mask produced by `processor.pad`: 1 on the original
`n` positions, 0 on the padded tail up to length `L`. -/
def label_attention_mask (L n : Nat) : List Nat :=
  List.replicate n 1 ++ List.replicate (L - n) 0

/-- `labels_batch["input_ids"].masked_fill(labels_batch.attention_mask.ne(1),
-100)` (lines 271-272): overwrite every position whose mask is not 1 with
the ignore sentinel. -/
def masked_fill_ignore (xs : List Int) (mask : List Nat) : List Int :=
  List.zipWith (fun v m => if m = 1 then v else -100) xs mask

/-- Label side of `DataCollatorCTCWithPadding.__call__` (lines 246-276):
pad each example's labels to the batch's longest length and mask the padded
tail with -100. -/
def collate_labels (pad_id : Int) (features : List (List Int)) :
    List (List Int) :=
  features.map (fun xs =>
    masked_fill_ignore (pad_sequence (batch_max_len features) pad_id xs)
      (label_attention_mask (batch_max_len features) xs.length))

/-- A prepared example as built by `prepare_example` (lines 388-398): the
fields of the dataset row that the rest of the pipeline reads. -/
structure PreparedExample where
  speech_len : Nat
  sampling_rate : Nat
  duration_in_seconds : ℚ
  text : List Char
deriving DecidableEq, Repr

/-- `target_sr` (line 378): the feature extractor's sampling rate when the
`target_feature_extractor_sampling_rate` flag is set, otherwise Python
`None`. -/
def target_sr (flag : Bool) (feature_extractor_sampling_rate : Nat) :
    Option Nat :=
  if flag then some feature_extractor_sampling_rate else none

/-- The sample rate at which `prepare_example` decodes audio (lines
389-390): `librosa.load(example["file"], sr=16000)` passes the literal
16000, independent of the resample flag. -/
def librosa_decode_sr (_flag : Bool) : Nat := 16000

/-- `len(example["speech"]) / target_sr` (line 392). `none` models the
uncaught `TypeError` raised when `target_sr` is `None` (and the
`ZeroDivisionError` when it is 0). -/
def duration_of (speech_len : Nat) : Option Nat → Option ℚ
  | none => none
  | some sr => if sr = 0 then none else some ((speech_len : ℚ) / (sr : ℚ))

/-- `vocabulary_text_cleaner.sub("", text)` (lines 381-385, 394): remove
every character that is neither whitespace nor in the vocabulary (compared
case-insensitively when the tokenizer lowercases). -/
def vocabulary_text_clean (vocab_chars : List Char) (ignore_case : Bool)
    (text : List Char) : List Char :=
  text.filter (fun c => isPySpace c ||
    (if ignore_case then (vocab_chars.map Char.toLower).contains c.toLower
     else vocab_chars.contains c))

/-- `prepare_example` (lines 388-398) on one example: decode audio (always
at 16000 Hz), compute the duration from `target_sr`, and normalize then
vocabulary-clean the transcript. `none` models the uncaught exception at the
duration computation. -/
def prepare_example (o : Orthography) (vocab_chars : List Char)
    (ignore_case flag : Bool) (feature_extractor_sampling_rate : Nat)
    (speech_len : Nat) (text : List Char) : Option PreparedExample :=
  let sr := librosa_decode_sr flag
  match duration_of speech_len
      (target_sr flag feature_extractor_sampling_rate) with
  | none => none
  | some d => some
      { speech_len := speech_len
        sampling_rate := sr
        duration_in_seconds := d
        text := vocabulary_text_clean vocab_chars ignore_case
          (o.preprocess_for_training text) }

/-- `filter_by_max_duration` (lines 407-408): the predicate passed to
`dataset.filter`, retaining examples whose duration does not exceed the
threshold (inclusive boundary). -/
def filter_by_max_duration (maxDur : ℚ) (e : PreparedExample) : Bool :=
  decide (e.duration_in_seconds ≤ maxDur)

/-- `dataset.filter(filter_by_max_duration)` (lines 412-413). -/
def dataset_filter (maxDur : ℚ) (ds : List PreparedExample) :
    List PreparedExample :=
  ds.filter (filter_by_max_duration maxDur)

/-- The warning guard of `main` after filtering (lines 414-417): the code
emits `Filtered out {len(train_dataset) - old_train_size} ...` only when
`len(train_dataset) > old_train_size`. The result is the count the warning
would report, `none` when no warning is emitted. -/
def filter_warning_count (old_size new_size : Nat) : Option Int :=
  if new_size > old_size then some ((new_size : Int) - (old_size : Int))
  else none

/-- Python `s.replace(old, new)` for the non-empty patterns the script uses:
replace all non-overlapping occurrences, scanning left to right. The fuel is
the string length, which suffices since every step consumes at least one
character. -/
def pyReplaceAux : Nat → List Char → List Char → List Char → List Char
  | 0, s, _, _ => s
  | _ + 1, [], _, _ => []
  | fuel + 1, c :: cs, old, new =>
    if !old.isEmpty && old.isPrefixOf (c :: cs) then
      new ++ pyReplaceAux fuel (List.drop old.length (c :: cs)) old new
    else c :: pyReplaceAux fuel cs old new

/-- Python `s.replace(old, new)`. -/
def pyReplace (s old new : List Char) : List Char :=
  pyReplaceAux s.length s old new

/-- Per-fold output-directory update of `main` (lines 490-494): fold 0
appends `"_fold_0"`; every later fold replaces the previous fold's suffix
with its own via `str.replace`. -/
def fold_output_dir (i : Nat) (dir : List Char) : List Char :=
  if i = 0 then dir ++ ("_fold_" ++ toString i).toList
  else pyReplace dir ("_fold_" ++ toString (i - 1)).toList
    ("_fold_" ++ toString i).toList

/-- The sequence of output directories produced by a run of the fold loop
over the given fold indices, threading the mutated
`training_args.output_dir` from each fold to the next. -/
def fold_dirs_from : List Nat → List Char → List (List Char)
  | [], _ => []
  | i :: rest, dir =>
    let d := fold_output_dir i dir
    d :: fold_dirs_from rest d

/-- The fold indices `main` actually executes (lines 356-357): `k = 4` and
`for i in range(2, k)`. -/
def main_fold_indices : List Nat := List.range' 2 2

/-- The output directories of the folds `main` executes, starting from the
configured base `training_args.output_dir`. -/
def main_fold_dirs (base : List Char) : List (List Char) :=
  fold_dirs_from main_fold_indices base

/-- The supported orthography scheme names (lines 161-179). -/
def supported_orthographies : List String :=
  ["librispeech", "timit", "buckwalter"]

/-- Orchestration order of `main` (lines 355-357): the orthography name
(already lowercased by the caller) is resolved once, before the fold loop;
an error there propagates and no fold output directory is ever produced. -/
def main_resolve_then_folds (orthography_name : String) (base : List Char) :
    Except String (Orthography × List (List Char)) :=
  (Orthography.from_name orthography_name).map
    (fun o => (o, main_fold_dirs base))

theorem foldr_splitStep_no_space (w : List Char)
    (hw : ∀ c ∈ w, isPySpace c = false) (p : List Char × List (List Char)) :
    w.foldr splitStep p = (w ++ p.1, p.2) := by
  induction w with
  | nil => rfl
  | cons c cs ih =>
    have hc : isPySpace c = false := hw c (by simp)
    have ih' := ih (fun x hx => hw x (List.mem_cons_of_mem _ hx))
    simp [List.foldr_cons, ih', splitStep, hc]

theorem mem_flushWord {w : List Char} {p : List Char × List (List Char)}
    (h : w ∈ flushWord p) : (w = p.1 ∧ w ≠ []) ∨ w ∈ p.2 := by
  unfold flushWord at h
  split at h
  · exact Or.inr h
  · rcases List.mem_cons.mp h with rfl | h2
    · exact Or.inl ⟨rfl, by assumption⟩
    · exact Or.inr h2

theorem foldr_splitStep_invariant : ∀ s : List Char,
    (∀ c ∈ (s.foldr splitStep (([], []) : List Char × List (List Char))).1,
        isPySpace c = false ∧ c ∈ s) ∧
    (∀ w ∈ (s.foldr splitStep (([], []) : List Char × List (List Char))).2,
        w ≠ [] ∧ ∀ x ∈ w, isPySpace x = false ∧ x ∈ s)
  | [] => by simp
  | c :: cs => by
    obtain ⟨h1, h2⟩ := foldr_splitStep_invariant cs
    simp only [List.foldr_cons]
    by_cases hc : isPySpace c
    · rw [splitStep, if_pos hc]
      refine ⟨by simp, ?_⟩
      intro w hw
      rcases mem_flushWord hw with ⟨hw1, hne⟩ | hw2
      · subst hw1
        exact ⟨hne, fun x hx =>
          ⟨(h1 x hx).1, List.mem_cons_of_mem _ (h1 x hx).2⟩⟩
      · obtain ⟨hne, hx⟩ := h2 w hw2
        exact ⟨hne, fun x hxw =>
          ⟨(hx x hxw).1, List.mem_cons_of_mem _ (hx x hxw).2⟩⟩
    · rw [splitStep, if_neg hc]
      constructor
      · intro x hx
        rcases List.mem_cons.mp hx with rfl | hx2
        · exact ⟨by simpa using hc, List.mem_cons_self _ _⟩
        · exact ⟨(h1 x hx2).1, List.mem_cons_of_mem _ (h1 x hx2).2⟩
      · intro w hw
        obtain ⟨hne, hx⟩ := h2 w hw
        exact ⟨hne, fun x hxw =>
          ⟨(hx x hxw).1, List.mem_cons_of_mem _ (hx x hxw).2⟩⟩

theorem pySplit_words_wf (s : List Char) :
    ∀ w ∈ pySplit s, (w ≠ [] ∧ ∀ c ∈ w, isPySpace c = false) ∧ ∀ c ∈ w, c ∈ s := by
  intro w hw
  obtain ⟨h1, h2⟩ := foldr_splitStep_invariant s
  rcases mem_flushWord hw with ⟨hw1, hne⟩ | hw2
  · subst hw1
    exact ⟨⟨hne, fun c hc => (h1 c hc).1⟩, fun c hc => (h1 c hc).2⟩
  · obtain ⟨hne, hx⟩ := h2 w hw2
    exact ⟨⟨hne, fun c hc => (hx c hc).1⟩, fun c hc => (hx c hc).2⟩

theorem joinWords_cons_cons (w w2 : List Char) (rest : List (List Char)) :
    joinWords (w :: w2 :: rest) = w ++ ' ' :: joinWords (w2 :: rest) := rfl

theorem pySplit_joinWords : ∀ ws : List (List Char),
    (∀ w ∈ ws, w ≠ [] ∧ ∀ c ∈ w, isPySpace c = false) →
    pySplit (joinWords ws) = ws
  | [], _ => rfl
  | [w], h => by
    obtain ⟨hne, hns⟩ := h w (List.mem_cons_self _ _)
    show flushWord (w.foldr splitStep ([], [])) = [w]
    rw [foldr_splitStep_no_space w hns]
    simp [flushWord, hne]
  | w :: w2 :: rest, h => by
    obtain ⟨hne, hns⟩ := h w (List.mem_cons_self _ _)
    have ih := pySplit_joinWords (w2 :: rest)
      (fun x hx => h x (List.mem_cons_of_mem _ hx))
    show flushWord ((joinWords (w :: w2 :: rest)).foldr splitStep ([], []))
        = w :: w2 :: rest
    rw [joinWords_cons_cons, List.foldr_append]
    have hsp : (' ' :: joinWords (w2 :: rest)).foldr splitStep ([], [])
        = ([], pySplit (joinWords (w2 :: rest))) := by
      simp only [List.foldr_cons]
      rw [splitStep, if_pos (by decide)]
      rfl
    rw [hsp, ih, foldr_splitStep_no_space w hns]
    simp [flushWord, hne]

theorem mem_joinWords : ∀ (ws : List (List Char)) (c : Char),
    c ∈ joinWords ws → c = ' ' ∨ ∃ w ∈ ws, c ∈ w
  | [], c, h => by simp [joinWords] at h
  | [w], c, h => Or.inr ⟨w, List.mem_cons_self _ _, h⟩
  | w :: w2 :: rest, c, h => by
    rw [joinWords_cons_cons] at h
    rcases List.mem_append.mp h with h1 | h1
    · exact Or.inr ⟨w, List.mem_cons_self _ _, h1⟩
    · rcases List.mem_cons.mp h1 with rfl | h2
      · exact Or.inl rfl
      · rcases mem_joinWords (w2 :: rest) c h2 with h3 | ⟨x, hx, hcx⟩
        · exact Or.inl h3
        · exact Or.inr ⟨x, List.mem_cons_of_mem _ hx, hcx⟩

theorem pyTranslate_dash_apply (c : Char) :
    ((dashToSpaceTable.lookup c).getD c) = if c = '-' then ' ' else c := by
  by_cases h : c = '-'
  · simp [dashToSpaceTable, List.lookup, h]
  · have hb : (c == '-') = false := by simpa using h
    simp [dashToSpaceTable, List.lookup, h, hb]

theorem pyTranslate_dash_no_dash (s : List Char) :
    ∀ c ∈ pyTranslate dashToSpaceTable s, c ≠ '-' := by
  intro c hc
  simp only [pyTranslate, List.mem_map] at hc
  obtain ⟨a, _, rfl⟩ := hc
  rw [pyTranslate_dash_apply]
  by_cases h : a = '-' <;> simp [h]

theorem pyTranslate_dash_id (s : List Char) (h : ∀ c ∈ s, c ≠ '-') :
    pyTranslate dashToSpaceTable s = s := by
  induction s with
  | nil => rfl
  | cons c cs ih =>
    have hc := h c (List.mem_cons_self _ _)
    have ih' := ih (fun x hx => h x (List.mem_cons_of_mem _ hx))
    simp only [pyTranslate, List.map_cons] at ih' ⊢
    rw [pyTranslate_dash_apply, if_neg hc, ih']

theorem mem_removeWordsAndJoin (o : Orthography) (s : List Char) (c : Char)
    (hc : c ∈ removeWordsAndJoin o s) : c = ' ' ∨ c ∈ s := by
  unfold removeWordsAndJoin at hc
  split at hc
  · rcases mem_joinWords _ c hc with h | ⟨w, hw, hcw⟩
    · exact Or.inl h
    · exact Or.inr ((pySplit_words_wf s w hw).2 c hcw)
  · rcases mem_joinWords _ c hc with h | ⟨w, hw, hcw⟩
    · exact Or.inl h
    · exact Or.inr
        ((pySplit_words_wf s w (List.mem_filter.mp hw).1).2 c hcw)

theorem removeWordsAndJoin_idem (o : Orthography) (s : List Char) :
    removeWordsAndJoin o (removeWordsAndJoin o s) = removeWordsAndJoin o s := by
  by_cases h : o.words_to_remove.length = 0
  · have he : ∀ u, removeWordsAndJoin o u = joinWords (pySplit u) := by
      intro u; rw [removeWordsAndJoin, if_pos h]
    simp only [he]
    rw [pySplit_joinWords (pySplit s) (fun w hw => (pySplit_words_wf s w hw).1)]
  · have he : ∀ u, removeWordsAndJoin o u
        = joinWords ((pySplit u).filter
            (fun w => !(o.words_to_remove.contains w))) := by
      intro u; rw [removeWordsAndJoin, if_neg h]
    simp only [he]
    rw [pySplit_joinWords
        ((pySplit s).filter (fun w => !(o.words_to_remove.contains w)))
        (fun w hw => (pySplit_words_wf s w (List.mem_filter.mp hw).1).1)]
    rw [List.filter_eq_self.mpr (fun w hw => (List.mem_filter.mp hw).2)]

theorem preprocess_for_training_idem (o : Orthography)
    (htbl : o.translation_table = [] ∨ o.translation_table = dashToSpaceTable)
    (t : List Char) :
    o.preprocess_for_training (o.preprocess_for_training t)
      = o.preprocess_for_training t := by
  unfold Orthography.preprocess_for_training
  rcases htbl with h | h
  · have hid : ∀ s, applyTranslation o s = s := by
      intro s; simp [applyTranslation, h]
    rw [hid, hid]
    exact removeWordsAndJoin_idem o t
  · have hlen : o.translation_table.length > 0 := by rw [h]; decide
    have happ : ∀ s, applyTranslation o s = pyTranslate dashToSpaceTable s := by
      intro s; rw [applyTranslation, if_pos hlen, h]
    have hnd : ∀ c ∈ applyTranslation o t, c ≠ '-' := by
      intro c hc
      rw [happ] at hc
      exact pyTranslate_dash_no_dash t c hc
    have h1 : applyTranslation o (removeWordsAndJoin o (applyTranslation o t))
        = removeWordsAndJoin o (applyTranslation o t) := by
      rw [happ]
      apply pyTranslate_dash_id
      intro c hc
      rcases mem_removeWordsAndJoin o _ c hc with rfl | hcs
      · decide
      · exact hnd c hcs
    rw [h1]
    exact removeWordsAndJoin_idem o _

/-- Claim C4: for every supported orthography name, the policy returned by
`Orthography.from_name` has an idempotent `preprocess_for_training`:
applying it twice to arbitrary text gives the same result as applying it
once. -/
theorem from_name_preprocess_idempotent (name : String) (o : Orthography)
    (h : Orthography.from_name name = Except.ok o) (t : List Char) :
    o.preprocess_for_training (o.preprocess_for_training t)
      = o.preprocess_for_training t := by
  apply preprocess_for_training_idem
  rw [Orthography.from_name] at h
  split_ifs at h
  · injection h with h; subst h; exact Or.inl rfl
  · injection h with h; subst h; exact Or.inr rfl
  · injection h with h; subst h; exact Or.inr rfl

/-- Witness for C4 at the name `"timit"` and a concrete text. -/
theorem from_name_preprocess_idempotent_witness :
    Orthography.from_name "timit" = Except.ok timitOrthography ∧
    timitOrthography.preprocess_for_training
        (timitOrthography.preprocess_for_training "a--b  sil".toList)
      = timitOrthography.preprocess_for_training "a--b  sil".toList :=
  ⟨rfl, from_name_preprocess_idempotent "timit" timitOrthography rfl
    "a--b  sil".toList⟩

/-- Claim C1: with `n_gpu > 1` the loss is reduced per the configured
policy: `"mean"` gives the element-wise average of the per-replica losses
(in particular `[2, 4]` reduces to `3`); `"sum"` gives the summed losses
divided by the count of non-ignored label positions (which, for label
vectors containing only token ids and the -100 sentinel, is exactly the
count of non-sentinel positions); any other value makes the step fail with
the configuration error, short-circuiting before the backward pass. -/
theorem training_step_multi_gpu_reduction (cfg : TrainConfig)
    (losses : List ℚ) (labels : List Int) (hgpu : 1 < cfg.n_gpu) :
    (cfg.ctc_loss_reduction = "mean" →
      reduce_loss cfg losses labels
        = Except.ok (lossSum losses / (losses.length : ℚ))) ∧
    (cfg.ctc_loss_reduction = "sum" →
      reduce_loss cfg losses labels
        = Except.ok (lossSum losses / (count_non_ignored labels : ℚ))) ∧
    (cfg.ctc_loss_reduction ≠ "mean" → cfg.ctc_loss_reduction ≠ "sum" →
      training_step cfg losses labels = Except.error
        (cfg.ctc_loss_reduction ++ " is not valid. Choose one of [mean, sum]")) ∧
    ((∀ v ∈ labels, 0 ≤ v ∨ v = -100) →
      count_non_ignored labels
        = labels.countP (fun v => decide (v ≠ -100))) ∧
    lossMean [2, 4] = 3 := by
  refine ⟨fun hm => ?_, fun hs => ?_, fun hm hs => ?_, fun hv => ?_, ?_⟩
  · rw [reduce_loss, if_pos hgpu, if_pos hm, lossMean]
  · have hm : ¬cfg.ctc_loss_reduction = "mean" := by rw [hs]; decide
    rw [reduce_loss, if_pos hgpu, if_neg hm, if_pos hs]
  · rw [training_step, reduce_loss, if_pos hgpu, if_neg hm, if_neg hs]
    rfl
  · rw [count_non_ignored]
    induction labels with
    | nil => rfl
    | cons v rest ih =>
      have hvh := hv v (List.mem_cons_self _ _)
      have ih' := ih (fun x hx => hv x (List.mem_cons_of_mem _ hx))
      simp only [List.countP_cons, ih']
      congr 1
      rcases hvh with h0 | hm100
      · have h1 : decide (0 ≤ v) = true := by simpa using h0
        have h2 : decide (v ≠ -100) = true := by simp; omega
        rw [h1, h2]
      · subst hm100
        decide
  · norm_num [lossMean, lossSum]

/-- Witness for C1 at a two-replica configuration with an unrecognized
reduction string. -/
theorem training_step_multi_gpu_reduction_witness :
    training_step ⟨2, "other", 1⟩ [2, 4] [0, 1, -100]
      = Except.error ("other" ++ " is not valid. Choose one of [mean, sum]") :=
  (training_step_multi_gpu_reduction ⟨2, "other", 1⟩ [2, 4] [0, 1, -100]
    (by decide)).2.2.1 (by decide) (by decide)

/-- Claim C10: with gradient accumulation configured above 1 step, the loss
passed to the backward pass (and returned detached) is the reduced loss
divided by the accumulation-step count — with 4 steps, `L / 4`; with at most
1 step the loss is unchanged. -/
theorem training_step_grad_accum (cfg : TrainConfig) (losses : List ℚ)
    (labels : List Int) (L : ℚ)
    (h : reduce_loss cfg losses labels = Except.ok L) :
    (1 < cfg.gradient_accumulation_steps →
      training_step cfg losses labels
        = Except.ok (L / (cfg.gradient_accumulation_steps : ℚ))) ∧
    (cfg.gradient_accumulation_steps ≤ 1 →
      training_step cfg losses labels = Except.ok L) ∧
    (cfg.gradient_accumulation_steps = 4 →
      training_step cfg losses labels = Except.ok (L / 4)) := by
  refine ⟨fun hg => ?_, fun hg => ?_, fun hg => ?_⟩
  · rw [training_step, h]
    show Except.ok (grad_accum_scale cfg L) = _
    rw [grad_accum_scale, if_pos hg]
  · rw [training_step, h]
    show Except.ok (grad_accum_scale cfg L) = _
    rw [grad_accum_scale, if_neg (by omega)]
  · rw [training_step, h]
    show Except.ok (grad_accum_scale cfg L) = _
    rw [grad_accum_scale, if_pos (by omega), hg]
    norm_num

/-- Witness for C10: a single-device step with raw loss 5 and 4 accumulation
steps backpropagates 5/4. -/
theorem training_step_grad_accum_witness :
    training_step ⟨1, "mean", 4⟩ [5] [] = Except.ok ((5 : ℚ) / 4) :=
  (training_step_grad_accum ⟨1, "mean", 4⟩ [5] [] 5 rfl).2.2 rfl

theorem getD_replicate {α : Type} (a d : α) :
    ∀ (n j : Nat), (List.replicate n a).getD j d = if j < n then a else d
  | 0, _ => by simp
  | n + 1, 0 => by simp
  | n + 1, j + 1 => by
    simp only [List.replicate_succ, List.getD_cons_succ]
    rw [getD_replicate a d n j]
    simp [Nat.succ_lt_succ_iff]

theorem getD_append_split {α : Type} (d : α) :
    ∀ (l1 l2 : List α) (j : Nat),
      (l1 ++ l2).getD j d
        = if j < l1.length then l1.getD j d else l2.getD (j - l1.length) d
  | [], _, _ => by simp
  | _ :: _, _, 0 => by simp
  | a :: l1, l2, j + 1 => by
    simp only [List.cons_append, List.getD_cons_succ, List.length_cons]
    rw [getD_append_split d l1 l2 j]
    simp [Nat.succ_lt_succ_iff, Nat.succ_sub_succ]

theorem getD_zipWith {α β γ : Type} (f : α → β → γ) (d : γ) (d1 : α) (d2 : β) :
    ∀ (l1 : List α) (l2 : List β) (j : Nat), j < l1.length → j < l2.length →
      (List.zipWith f l1 l2).getD j d = f (l1.getD j d1) (l2.getD j d2)
  | [], _, j, h1, _ => absurd h1 (by simp)
  | _ :: _, [], j, _, h2 => absurd h2 (by simp)
  | a :: l1, b :: l2, 0, _, _ => by simp
  | a :: l1, b :: l2, j + 1, h1, h2 => by
    simp only [List.zipWith_cons_cons, List.getD_cons_succ]
    exact getD_zipWith f d d1 d2 l1 l2 j (by simpa using h1) (by simpa using h2)

theorem getD_mem {α : Type} : ∀ (l : List α) (j : Nat) (d : α),
    j < l.length → l.getD j d ∈ l
  | [], _, _, h => absurd h (by simp)
  | _ :: _, 0, _, _ => List.mem_cons_self _ _
  | _ :: l, j + 1, d, h => by
    rw [List.getD_cons_succ]
    exact List.mem_cons_of_mem _ (getD_mem l j d (by simpa using h))

theorem label_attention_mask_getD (L n j : Nat) :
    (label_attention_mask L n).getD j 0 = if j < n then 1 else 0 := by
  rw [label_attention_mask, getD_append_split]
  simp only [List.length_replicate]
  by_cases h : j < n
  · rw [if_pos h, getD_replicate, if_pos h]
  · rw [if_neg h, getD_replicate]
    split <;> rfl

theorem mem_le_batch_max_len :
    ∀ (features : List (List Int)) (xs : List Int), xs ∈ features →
      xs.length ≤ batch_max_len features
  | f :: rest, xs, h => by
    rcases List.mem_cons.mp h with rfl | h2
    · exact le_max_left _ _
    · exact le_trans (mem_le_batch_max_len rest xs h2) (le_max_right _ _)

theorem collated_row_getD (L : Nat) (pad_id : Int) (xs : List Int)
    (hn : xs.length ≤ L) (j : Nat) (hj : j < L) :
    (masked_fill_ignore (pad_sequence L pad_id xs)
        (label_attention_mask L xs.length)).getD j 0
      = if j < xs.length then xs.getD j 0 else -100 := by
  have hlen1 : (pad_sequence L pad_id xs).length = L := by
    simp only [pad_sequence, List.length_append, List.length_replicate]
    omega
  have hlen2 : (label_attention_mask L xs.length).length = L := by
    simp only [label_attention_mask, List.length_append, List.length_replicate]
    omega
  rw [masked_fill_ignore,
    getD_zipWith _ 0 0 0 _ _ j (by rw [hlen1]; exact hj) (by rw [hlen2]; exact hj),
    label_attention_mask_getD, pad_sequence, getD_append_split]
  by_cases h : j < xs.length
  · rw [if_pos h, if_pos h, if_pos h, if_pos rfl]
  · rw [if_neg h, if_neg h, if_neg h, getD_replicate,
      if_pos (by omega : j - xs.length < L - xs.length)]
    rw [if_neg (by decide : ¬(0 : Nat) = 1)]

/-- Claim C5: in every collated batch, a label position carries mask value 1
exactly when it lies within the example's original label span; every
position beyond the original length (up to the padded length) holds the
ignore sentinel -100; and, for label vectors of tokenizer ids (non-negative
values), no position inside the original span holds the sentinel — those
positions keep their original values. -/
theorem collate_labels_sentinel (pad_id : Int) (features : List (List Int))
    (i j : Nat) (hi : i < features.length)
    (hlab : ∀ xs ∈ features, ∀ v ∈ xs, 0 ≤ v) :
    ((label_attention_mask (batch_max_len features)
        (features.getD i []).length).getD j 0 = 1
      ↔ j < (features.getD i []).length) ∧
    (j < (features.getD i []).length →
      ((collate_labels pad_id features).getD i []).getD j 0
          = (features.getD i []).getD j 0 ∧
        ((collate_labels pad_id features).getD i []).getD j 0 ≠ -100) ∧
    ((features.getD i []).length ≤ j → j < batch_max_len features →
      ((collate_labels pad_id features).getD i []).getD j 0 = -100) := by
  have hxs_mem : features.getD i [] ∈ features := getD_mem features i [] hi
  have hn : (features.getD i []).length ≤ batch_max_len features :=
    mem_le_batch_max_len features _ hxs_mem
  have hrow : (collate_labels pad_id features).getD i []
      = masked_fill_ignore
          (pad_sequence (batch_max_len features) pad_id (features.getD i []))
          (label_attention_mask (batch_max_len features)
            (features.getD i []).length) := by
    rw [collate_labels, List.getD_eq_getElem?_getD,
      List.getElem?_map, List.getElem?_eq_getElem hi]
    simp only [Option.map_some', Option.getD_some]
    rw [List.getD_eq_getElem?_getD, List.getElem?_eq_getElem hi]
    rfl
  refine ⟨?_, fun hj => ?_, fun hj1 hj2 => ?_⟩
  · rw [label_attention_mask_getD]
    by_cases h : j < (features.getD i []).length
    · rw [if_pos h]; simpa using h
    · rw [if_neg h]; simpa using h
  · have hjL : j < batch_max_len features := lt_of_lt_of_le hj hn
    rw [hrow, collated_row_getD _ _ _ hn j hjL, if_pos hj]
    refine ⟨rfl, ?_⟩
    have hmem : (features.getD i []).getD j 0 ∈ features.getD i [] :=
      getD_mem _ j 0 hj
    have := hlab _ hxs_mem _ hmem
    omega
  · rw [hrow, collated_row_getD _ _ _ hn j hj2, if_neg (by omega)]

/-- Witness for C5 on the concrete batch `[[3, 4], [5]]` at example 1,
position 1: beyond the original span the collated label is -100. -/
theorem collate_labels_sentinel_witness :
    ((collate_labels 7 [[3, 4], [5]]).getD 1 []).getD 1 0 = -100 :=
  (collate_labels_sentinel 7 [[3, 4], [5]] 1 1 (by decide)
    (by decide)).2.2 (by decide) (by decide)

/-- Claim C6: for every threshold and dataset, the duration filter keeps
exactly the examples whose duration is at most the threshold (boundary
inclusive: an example with duration exactly equal to the threshold is
retained), so the output size equals the count of examples with duration at
most the threshold. -/
theorem dataset_filter_exact (maxDur : ℚ) (ds : List PreparedExample) :
    (∀ e, e ∈ dataset_filter maxDur ds
      ↔ e ∈ ds ∧ e.duration_in_seconds ≤ maxDur) ∧
    (dataset_filter maxDur ds).length
      = ds.countP (fun e => decide (e.duration_in_seconds ≤ maxDur)) ∧
    (∀ e ∈ ds, e.duration_in_seconds = maxDur →
      e ∈ dataset_filter maxDur ds) := by
  refine ⟨fun e => ?_, ?_, fun e he hd => ?_⟩
  · rw [dataset_filter, List.mem_filter, filter_by_max_duration,
      decide_eq_true_eq]
  · rw [dataset_filter, List.countP_eq_length_filter]
    rfl
  · rw [dataset_filter, List.mem_filter]
    exact ⟨he, by rw [filter_by_max_duration, hd]; simp⟩

/-- Witness for C6: an example whose duration equals the threshold is
retained. -/
theorem dataset_filter_exact_witness :
    (⟨16000, 16000, 1, []⟩ : PreparedExample)
      ∈ dataset_filter 1 [⟨16000, 16000, 1, []⟩] :=
  (dataset_filter_exact 1 [⟨16000, 16000, 1, []⟩]).2.2
    ⟨16000, 16000, 1, []⟩ (by decide) (by decide)

/-- Claim C7 (code bug): the script's warning guard compares in the wrong
direction. On the concrete input below (one example of duration 2, threshold
1) the filter removes one example, yet `len(train_dataset) >
old_train_size` is false and no warning reporting the removal is ever
emitted; in general the guard can never fire after a filter, because
filtering cannot grow the dataset. -/
theorem filter_warning_never_fires :
    (dataset_filter 1 [⟨32000, 16000, 2, []⟩]).length = 0 ∧
    1 - (dataset_filter 1 [⟨32000, 16000, 2, []⟩]).length = 1 ∧
    filter_warning_count 1 (dataset_filter 1 [⟨32000, 16000, 2, []⟩]).length
      = none ∧
    ∀ old_size new_size : Nat, new_size ≤ old_size →
      filter_warning_count old_size new_size = none := by
  refine ⟨by decide, by decide, by decide, fun o n h => ?_⟩
  rw [filter_warning_count, if_neg (by omega)]

/-- Witness for the general part of the C7 theorem. -/
theorem filter_warning_never_fires_witness :
    filter_warning_count 5 3 = none :=
  filter_warning_never_fires.2.2.2 5 3 (by decide)

/-- Counterexample to Claim C8 as stated: with threshold 0, an example whose
duration is exactly 0 (an empty decoded waveform) satisfies `0 <= 0` and is
retained, so a threshold of 0 does not exclude all examples. -/
theorem max_duration_zero_counterexample :
    dataset_filter 0 [⟨0, 16000, 0, []⟩] = [⟨0, 16000, 0, []⟩] := by decide

/-- Claim C8 (amended): a threshold of 0 excludes every example with
positive duration — on datasets whose durations are all positive the
filtered dataset is empty — and this is an ordinary filter outcome, not an
error. -/
theorem max_duration_zero_excludes_positive (ds : List PreparedExample)
    (h : ∀ e ∈ ds, 0 < e.duration_in_seconds) :
    dataset_filter 0 ds = [] := by
  rw [dataset_filter, List.filter_eq_nil_iff]
  intro e he
  rw [filter_by_max_duration]
  simp only [decide_eq_true_eq, not_le]
  exact h e he

/-- Witness for the amended C8 on a one-second example. -/
theorem max_duration_zero_excludes_positive_witness :
    dataset_filter 0 [⟨16000, 16000, 1, []⟩] = [] :=
  max_duration_zero_excludes_positive [⟨16000, 16000, 1, []⟩] (by decide)

/-- Claim C3: with the resample flag at its default `false`, `target_sr` is
Python `None` and `prepare_example` fails for every example while computing
`duration_in_seconds`; preparation succeeds only when the flag is set; and
decoding always happens at the fixed 16000 Hz rate regardless of the flag. -/
theorem prepare_example_requires_target_sr (o : Orthography)
    (vocab_chars : List Char) (ignore_case flag : Bool)
    (fe_sr speech_len : Nat) (text : List Char) :
    (flag = false → target_sr flag fe_sr = none ∧
      prepare_example o vocab_chars ignore_case flag fe_sr speech_len text
        = none) ∧
    (∀ p, prepare_example o vocab_chars ignore_case flag fe_sr speech_len text
        = some p → flag = true ∧ p.sampling_rate = 16000) ∧
    librosa_decode_sr flag = 16000 := by
  refine ⟨fun hf => ?_, fun p hp => ?_, rfl⟩
  · subst hf
    exact ⟨rfl, rfl⟩
  · cases flag
    · exact absurd hp (by simp [prepare_example, target_sr, duration_of])
    · refine ⟨rfl, ?_⟩
      rw [prepare_example] at hp
      by_cases h0 : fe_sr = 0
      · simp [target_sr, duration_of, h0] at hp
      · simp only [target_sr, if_pos, duration_of, h0, if_neg,
          ite_false] at hp
        injection hp with hp
        rw [← hp]
        rfl

/-- Witness for C3 with the flag left at its default `false`. -/
theorem prepare_example_requires_target_sr_witness :
    target_sr false 16000 = none ∧
    prepare_example librispeechOrthography [] false false 16000 16000 []
      = none :=
  (prepare_example_requires_target_sr librispeechOrthography [] false false
    16000 16000 []).1 rfl

/-- Claim C2 (code bug): the loop `for i in range(2, k)` with `k = 4` runs
only folds 2 and 3, so the `i == 0` append branch is dead; with base
directory `"run"`, fold 2's `replace("_fold_1", "_fold_2")` finds no
occurrence and leaves `"run"` unchanged, and likewise fold 3, so the two
executed folds share the same output directory instead of getting distinct
`_fold_i`-suffixed ones. Had the loop started at fold 0 (second conjunct)
the claimed naming scheme would hold on this base. -/
theorem main_fold_dirs_collide :
    main_fold_indices = [2, 3] ∧
    main_fold_dirs "run".toList = ["run".toList, "run".toList] ∧
    fold_dirs_from [0, 1] "run".toList
      = ["run_fold_0".toList, "run_fold_1".toList] := by
  refine ⟨by decide, by decide, by decide⟩

/-- Claim C9: every orthography name outside the supported set makes
`Orthography.from_name` fail with the configuration error — and, by the
orchestration order of `main`, the error propagates before any fold output
directory is produced — while every supported name resolves to a policy.
(The embedding is pure, so the failing call performs no side effects.) -/
theorem from_name_unsupported_fails (name : String) (base : List Char) :
    (name ∉ supported_orthographies →
      Orthography.from_name name
          = Except.error ("Unsupported orthography: " ++ name ++ ".") ∧
      main_resolve_then_folds name base
          = Except.error ("Unsupported orthography: " ++ name ++ ".")) ∧
    (name ∈ supported_orthographies →
      ∃ o, Orthography.from_name name = Except.ok o) := by
  constructor
  · intro h
    have h1 : ¬name = "librispeech" := fun e => h (by rw [e]; decide)
    have h2 : ¬name = "timit" := fun e => h (by rw [e]; decide)
    have h3 : ¬name = "buckwalter" := fun e => h (by rw [e]; decide)
    constructor
    · rw [Orthography.from_name, if_neg h1, if_neg h2, if_neg h3]
    · rw [main_resolve_then_folds, Orthography.from_name,
        if_neg h1, if_neg h2, if_neg h3]
      rfl
  · intro h
    simp only [supported_orthographies, List.mem_cons,
      List.not_mem_nil, or_false] at h
    rcases h with rfl | rfl | rfl
    · exact ⟨librispeechOrthography, rfl⟩
    · exact ⟨timitOrthography, rfl⟩
    · exact ⟨buckwalterOrthography, rfl⟩

/-- Witness for C9 at the unsupported name `"finnish"` and the supported
name `"buckwalter"`. -/
theorem from_name_unsupported_fails_witness :
    (Orthography.from_name "finnish"
        = Except.error ("Unsupported orthography: " ++ "finnish" ++ ".") ∧
      main_resolve_then_folds "finnish" "run".toList
        = Except.error ("Unsupported orthography: " ++ "finnish" ++ ".")) ∧
    (∃ o, Orthography.from_name "buckwalter" = Except.ok o) :=
  ⟨(from_name_unsupported_fails "finnish" "run".toList).1 (by decide),
    (from_name_unsupported_fails "buckwalter" "run".toList).2 (by decide)⟩
